import Mathlib

/-!
# Verification of the meeting-cost analytics core

Shallow embedding of the cost-calculation and aggregation engine of the
MEETING-roi repository (`src/utils/cost-calculator.js`,
`src/utils/velocity-correlator.js`, `src/index.js`), together with proofs
settling the frozen claims about it.

Modelling conventions:
* JavaScript numbers are modelled as exact rationals `ℚ`.  The one place the
  source can produce `NaN` on the modelled paths (the average-rate fallback
  `roleRates.reduce(...)/roleRates.length`, which is `0/0` when the rate table
  is empty) is modelled with `Option ℚ`, `none` standing for `NaN`.  `NaN`
  propagates through arithmetic, which `Option.map` reproduces; no `Infinity`
  can arise on these paths because every other divisor is checked or nonzero.
* Possibly-absent fields are `Option`s; JavaScript truthiness of a number
  field (`undefined`/`0` falsy) is `jsTruthy`.
* `attendeeRoles` may arrive as an array, a JSON string, or be absent.  A
  string field is modelled by the outcome of `JSON.parse`: `some l` when it
  parses to an array `l`, `none` when parsing throws or yields a non-array
  (both behave exactly like an empty role list in the source: the roles
  branch is not taken and the fallback branch is).
* Dates (`YYYY-MM-DD` strings, parsed by `new Date` to UTC midnight) are
  civil-calendar triples; the runtime is assumed to be in the UTC timezone,
  so `getFullYear`/`getDay` agree with the UTC calendar.  Display-only
  formatting (`formatCurrency`, `toFixed` interpolations in description /
  summary strings) is omitted: no claim mentions it.
-/

/-- One entry of the configured rate table (`config:roleRates`). -/
structure RoleRate where
  roleId : String
  roleName : String
  hourlyRate : ℚ
  deriving DecidableEq

/-- The `attendeeRoles` field as `calculateMeetingCost` receives it:
an actual array, a string (carrying the outcome of `JSON.parse`: `some l`
if it parses to the array `l`, `none` if parsing throws or yields a
non-array, which the source treats exactly like an empty list), or a
falsy value (`undefined`/`null`). -/
inductive RolesInput where
  | arr (l : List String)
  | str (parsed : Option (List String))
  | absent
  deriving DecidableEq

/-- Input record of `calculateMeetingCost`. -/
structure Meeting where
  durationMinutes : ℚ
  attendeeRoles : RolesInput
  attendeeCount : Option ℚ
  deriving DecidableEq

/-- JavaScript truthiness of a possibly-absent number. -/
def jsTruthy : Option ℚ → Bool
  | none => false
  | some q => q != 0

/-- The defensive role parsing at the top of `calculateMeetingCost`:
`typeof attendeeRoles === 'string' ? JSON.parse(attendeeRoles) : attendeeRoles || []`
wrapped in `try/catch` that falls back to `[]`. -/
def parseRoles : RolesInput → List String
  | .arr l => l
  | .str (some l) => l
  | .str none => []
  | .absent => []

/-- A breakdown line: the source pushes objects of two shapes, one per found
role in the roles branch, one single average-rate line in the fallback
branch (whose `hourlyRate` and `cost` are `NaN` when the rate table is
empty, hence `Option ℚ`). -/
inductive BreakdownEntry where
  | roleEntry (role : String) (roleId : String) (hourlyRate : ℚ) (hours : ℚ) (cost : ℚ)
  | avgEntry (hourlyRate : Option ℚ) (attendeeCount : ℚ) (hours : ℚ) (cost : Option ℚ)
  deriving DecidableEq

/-- Result of `calculateMeetingCost` (`formattedCost` omitted: display-only
currency formatting).  `none` models `NaN`. -/
structure CostResult where
  totalCost : Option ℚ
  breakdown : List BreakdownEntry
  costPerMinute : Option ℚ
  costPerHour : Option ℚ
  deriving DecidableEq

/-- `roleRates.find(r => r.roleId === roleId)`. -/
def findRate (roleRates : List RoleRate) (roleId : String) : Option RoleRate :=
  roleRates.find? (fun r => r.roleId == roleId)

/-- Body of the roles loop of `calculateMeetingCost`: for one occurrence of
a role id, if the rate table has it, accrue `(durationMinutes/60) *
hourlyRate` onto the running total and push a breakdown line; an unknown id
leaves the accumulator unchanged. -/
def rolesStep (durationMinutes : ℚ) (roleRates : List RoleRate)
    (acc : ℚ × List BreakdownEntry) (roleId : String) :
    ℚ × List BreakdownEntry :=
  match findRate roleRates roleId with
  | some rate =>
      (acc.1 + durationMinutes / 60 * rate.hourlyRate,
       acc.2 ++ [.roleEntry rate.roleName rate.roleId rate.hourlyRate
          (durationMinutes / 60) (durationMinutes / 60 * rate.hourlyRate)])
  | none => acc

/-- The roles loop of `calculateMeetingCost`, iterating over every
occurrence in the (parsed) `attendeeRoles` list. -/
def rolesLoop (durationMinutes : ℚ) (roleRates : List RoleRate)
    (roles : List String) : ℚ × List BreakdownEntry :=
  roles.foldl (rolesStep durationMinutes roleRates) (0, [])

/-- The average hourly rate used by the fallback branch:
`roleRates.reduce((sum, r) => sum + r.hourlyRate, 0) / roleRates.length`.
When the table is empty this is `0/0 = NaN` in the source — there is no
guard — modelled as `none`. -/
def avgHourlyRate (roleRates : List RoleRate) : Option ℚ :=
  if roleRates.length = 0 then none
  else some (((roleRates.map (·.hourlyRate)).sum) / (roleRates.length : ℚ))

/-- `calculateMeetingCost` from `src/utils/cost-calculator.js`. -/
def calculateMeetingCost (meeting : Meeting) (roleRates : List RoleRate) :
    CostResult :=
  let roles := parseRoles meeting.attendeeRoles
  let d := meeting.durationMinutes
  let (totalCost, breakdown) :=
    if 0 < roles.length then
      let r := rolesLoop d roleRates roles
      ((some r.1 : Option ℚ), r.2)
    else if jsTruthy meeting.attendeeCount then
      let cnt := meeting.attendeeCount.getD 0
      let avgRate := avgHourlyRate roleRates
      let tc := avgRate.map (fun a => d / 60 * a * cnt)
      (tc, [.avgEntry avgRate cnt (d / 60) tc])
    else (some 0, [])
  { totalCost := totalCost
    breakdown := breakdown
    -- durationMinutes > 0 ? totalCost / durationMinutes : 0
    costPerMinute := if 0 < d then totalCost.map (· / d) else some 0
    -- totalCost / (durationMinutes / 60 || 1)
    costPerHour := totalCost.map (· / (if d / 60 = 0 then 1 else d / 60)) }

/-! ## The cost computation inside the `addMeeting` resolver
(`src/index.js`).  Payload numeric fields are modelled by the outcome of
`parseInt` (`none` = `NaN`); the roles field by the outcome of the guarded
`JSON.parse` as in `RolesInput.str` (outer `none` = falsy field). -/

structure AddMeetingPayload where
  durationMinutes : Option Int
  attendeeCount : Option Int
  attendeeRoles : Option (Option (List String))
  deriving DecidableEq

/-- `parseInt(x) || d` : `NaN` and `0` both fall back to the default. -/
def parseIntOr (x : Option Int) (d : Int) : Int :=
  match x with
  | none => d
  | some v => if v = 0 then d else v

/-- The `calculatedCost` computed by the `addMeeting` resolver.  Note the
fallback branch is a plain `else` (no `attendeeCount` truthiness test), and
again divides by `roleRates.length` without an emptiness guard. -/
def addMeetingCalculatedCost (payload : AddMeetingPayload)
    (roleRates : List RoleRate) : Option ℚ :=
  let parsedDuration := parseIntOr payload.durationMinutes 30
  let parsedAttendeeCount := parseIntOr payload.attendeeCount 1
  let roles : List String :=
    match payload.attendeeRoles with
    | some (some l) => l
    | some none => []
    | none => []
  if 0 < roles.length then
    some (roles.foldl
      (fun acc roleId =>
        match findRate roleRates roleId with
        | some rate => acc + (parsedDuration : ℚ) / 60 * rate.hourlyRate
        | none => acc)
      0)
  else
    (avgHourlyRate roleRates).map
      (fun a => (parsedDuration : ℚ) / 60 * a * (parsedAttendeeCount : ℚ))

/-! ## Lemmas about the roles loop -/

/-- The hourly rate the loop uses for a role id: the first matching table
entry's rate, or `0` when the id is absent (a skipped occurrence
contributes nothing to the total). -/
def rateOrZero (roleRates : List RoleRate) (roleId : String) : ℚ :=
  ((findRate roleRates roleId).map (·.hourlyRate)).getD 0

theorem rolesLoop_go (d : ℚ) (roleRates : List RoleRate) :
    ∀ (roles : List String) (acc : ℚ × List BreakdownEntry),
      (roles.foldl (rolesStep d roleRates) acc).1
        = acc.1 + (roles.map (fun rid => d / 60 * rateOrZero roleRates rid)).sum := by
  intro roles
  induction roles with
  | nil => intro acc; simp
  | cons r rest ih =>
      intro acc
      rcases h : findRate roleRates r with _ | rate <;>
        simp [List.foldl_cons, ih, rolesStep, h, rateOrZero, add_assoc]

/-- The running total of the roles loop is the per-occurrence sum. -/
theorem rolesLoop_fst (d : ℚ) (roleRates : List RoleRate) (roles : List String) :
    (rolesLoop d roleRates roles).1
      = (roles.map (fun rid => d / 60 * rateOrZero roleRates rid)).sum := by
  simpa using rolesLoop_go d roleRates roles (0, [])

theorem rolesLoop_go_len (d : ℚ) (roleRates : List RoleRate) :
    ∀ (roles : List String) (acc : ℚ × List BreakdownEntry),
      (roles.foldl (rolesStep d roleRates) acc).2.length
        = acc.2.length + (roles.filter (fun rid => (findRate roleRates rid).isSome)).length := by
  intro roles
  induction roles with
  | nil => intro acc; simp
  | cons r rest ih =>
      intro acc
      rcases h : findRate roleRates r with _ | rate <;>
        simp +arith [List.foldl_cons, ih, rolesStep, h]

/-- The roles loop pushes exactly one breakdown line per occurrence of a
role id that the rate table contains. -/
theorem rolesLoop_snd_length (d : ℚ) (roleRates : List RoleRate) (roles : List String) :
    (rolesLoop d roleRates roles).2.length
      = (roles.filter (fun rid => (findRate roleRates rid).isSome)).length := by
  simpa using rolesLoop_go_len d roleRates roles (0, [])

/-! ## Claims about `calculateMeetingCost` and `addMeeting` -/

/-- **C1** (code bug, failing evaluation).  The claim (and the spec) say the
average-rate fallback is guarded against an empty rate table and yields
`totalCost = 0`.  The source has no such guard: with an empty rate table,
empty `attendeeRoles` and a truthy `attendeeCount`, `avgRate` is
`0/0 = NaN` and `totalCost` is `NaN` (modelled `none`), not `0`; the
`addMeeting` resolver computes the same `NaN` for its stored
`calculatedCost` (its fallback is unconditional). -/
theorem calculateMeetingCost_emptyTable_nan :
    (calculateMeetingCost ⟨60, .arr [], some 1⟩ []).totalCost = none
    ∧ addMeetingCalculatedCost ⟨some 60, some 1, none⟩ [] = none := by
  constructor <;> rfl

/-- **C2** (counterexample).  Removing a duplicate occurrence of a role id
from `attendeeRoles` changes `totalCost`: with the single-entry rate table
`[{engineer, 75}]` and a 60-minute meeting, roles
`["engineer", "engineer"]` cost 150 while `["engineer"]` costs 75 — the
loop accrues one cost line per occurrence, not per distinct role. -/
theorem calculateMeetingCost_dedup_cex :
    (calculateMeetingCost ⟨60, .arr ["engineer", "engineer"], none⟩
        [⟨"engineer", "Engineer", 75⟩]).totalCost
      = some 150
    ∧ (calculateMeetingCost ⟨60, .arr ["engineer"], none⟩
        [⟨"engineer", "Engineer", 75⟩]).totalCost
      = some 75 := by
  constructor <;>
    norm_num [calculateMeetingCost, parseRoles, rolesLoop, rolesStep, findRate,
      List.find?]

/-- **C2** (amended).  For a meeting whose `attendeeRoles` parses to a
non-empty list, `totalCost` is the sum of one contribution
`(durationMinutes/60) * hourlyRate` per *occurrence* of a role id found in
the rate table (occurrences absent from the table contribute 0); it is
therefore invariant under deduplication only when the duplicated ids are
absent from the table. -/
theorem calculateMeetingCost_per_occurrence (meeting : Meeting)
    (roleRates : List RoleRate) (l : List String)
    (hroles : parseRoles meeting.attendeeRoles = l) (hne : l ≠ []) :
    (calculateMeetingCost meeting roleRates).totalCost
      = some ((l.map
          (fun rid => meeting.durationMinutes / 60 * rateOrZero roleRates rid)).sum) := by
  have hlen : 0 < l.length := List.length_pos.mpr hne
  simp only [calculateMeetingCost, hroles, if_pos hlen]
  exact congrArg some (rolesLoop_fst _ _ _)

/-- **C2** (witness for the amended claim): evaluating the per-occurrence
formula on the duplicate-role meeting gives `totalCost = 150`. -/
theorem calculateMeetingCost_per_occurrence_witness :
    (calculateMeetingCost ⟨60, .arr ["engineer", "engineer"], none⟩
        [⟨"engineer", "Engineer", 75⟩]).totalCost = some 150 := by
  have h := calculateMeetingCost_per_occurrence
    ⟨60, .arr ["engineer", "engineer"], none⟩ [⟨"engineer", "Engineer", 75⟩]
    ["engineer", "engineer"] rfl (by decide)
  rw [h]
  norm_num [rateOrZero, findRate, List.find?]

/-- **C3** (confirmed).  For a meeting whose `attendeeRoles` parses to a
non-empty list of distinct role ids all present in the rate table,
`totalCost` is exactly the sum over those roles of
`(durationMinutes/60) * hourlyRate` (rate of the first matching table
entry), and the breakdown has one entry per role. -/
theorem calculateMeetingCost_distinct_roles (meeting : Meeting)
    (roleRates : List RoleRate) (l : List String)
    (hroles : parseRoles meeting.attendeeRoles = l) (hne : l ≠ [])
    (_hnodup : l.Nodup)
    (hfound : ∀ r ∈ l, (findRate roleRates r).isSome = true) :
    (calculateMeetingCost meeting roleRates).totalCost
      = some ((l.map
          (fun rid => meeting.durationMinutes / 60 * rateOrZero roleRates rid)).sum)
    ∧ (calculateMeetingCost meeting roleRates).breakdown.length = l.length := by
  have hlen : 0 < l.length := List.length_pos.mpr hne
  constructor
  · simp only [calculateMeetingCost, hroles, if_pos hlen]
    exact congrArg some (rolesLoop_fst _ _ _)
  · simp only [calculateMeetingCost, hroles, if_pos hlen]
    rw [rolesLoop_snd_length]
    rw [List.filter_eq_self.mpr hfound]

/-- **C3** (witness, Scenario A): rate table `{engineer: 75, pm: 90}`,
meeting `{durationMinutes: 60, attendeeRoles: ["engineer", "pm"]}` gives
`totalCost = 165` with a two-line breakdown. -/
theorem calculateMeetingCost_distinct_roles_witness :
    (calculateMeetingCost ⟨60, .arr ["engineer", "pm"], none⟩
        [⟨"engineer", "Engineer", 75⟩, ⟨"pm", "Product Manager", 90⟩]).totalCost
      = some 165
    ∧ (calculateMeetingCost ⟨60, .arr ["engineer", "pm"], none⟩
        [⟨"engineer", "Engineer", 75⟩, ⟨"pm", "Product Manager", 90⟩]).breakdown.length
      = 2 := by
  have h := calculateMeetingCost_distinct_roles
    ⟨60, .arr ["engineer", "pm"], none⟩
    [⟨"engineer", "Engineer", 75⟩, ⟨"pm", "Product Manager", 90⟩]
    ["engineer", "pm"] rfl (by decide) (by decide) (by decide)
  refine ⟨?_, h.2⟩
  rw [h.1]
  have e1 : rateOrZero
      [⟨"engineer", "Engineer", 75⟩, ⟨"pm", "Product Manager", 90⟩] "engineer" = 75 := rfl
  have e2 : rateOrZero
      [⟨"engineer", "Engineer", 75⟩, ⟨"pm", "Product Manager", 90⟩] "pm" = 90 := rfl
  simp only [List.map_cons, List.map_nil, List.sum_cons, List.sum_nil, e1, e2]
  norm_num

/-- **C9** (code bug, failing evaluation).  The claim says a zero-duration
meeting yields `totalCost = costPerMinute = costPerHour = 0` for *every*
rate table.  With an empty rate table, empty roles and truthy
`attendeeCount`, the unguarded average `0/0 = NaN` makes `totalCost` and
`costPerHour` `NaN` (modelled `none`); only `costPerMinute` is 0 (its
ternary guard fires).  For a non-empty table the claim's values do hold. -/
theorem calculateMeetingCost_zeroDuration_nan :
    (calculateMeetingCost ⟨0, .arr [], some 1⟩ []).totalCost = none
    ∧ (calculateMeetingCost ⟨0, .arr [], some 1⟩ []).costPerMinute = some 0
    ∧ (calculateMeetingCost ⟨0, .arr [], some 1⟩ []).costPerHour = none := by
  refine ⟨rfl, ?_, rfl⟩
  rfl

/-- **C10** (confirmed).  When `attendeeRoles` parses to the empty list and
`attendeeCount` is falsy (absent or zero), `calculateMeetingCost` takes
neither branch: `totalCost = 0` with an empty breakdown — the documented
default `attendeeCount = 1` is not substituted inside this function. -/
theorem calculateMeetingCost_no_fallback (meeting : Meeting)
    (roleRates : List RoleRate)
    (hroles : parseRoles meeting.attendeeRoles = [])
    (hcnt : jsTruthy meeting.attendeeCount = false) :
    (calculateMeetingCost meeting roleRates).totalCost = some 0
    ∧ (calculateMeetingCost meeting roleRates).breakdown = [] := by
  simp [calculateMeetingCost, hroles, hcnt]

/-- **C10** (witness): a 45-minute meeting with absent roles and absent
attendee count against a non-empty rate table costs 0 with no breakdown. -/
theorem calculateMeetingCost_no_fallback_witness :
    (calculateMeetingCost ⟨45, .absent, none⟩
        [⟨"engineer", "Engineer", 75⟩]).totalCost = some 0
    ∧ (calculateMeetingCost ⟨45, .absent, none⟩
        [⟨"engineer", "Engineer", 75⟩]).breakdown = [] :=
  calculateMeetingCost_no_fallback ⟨45, .absent, none⟩
    [⟨"engineer", "Engineer", 75⟩] rfl rfl

/-! ## Dates and period keys (`groupMeetingsByPeriod`)

Meeting `date` fields are `YYYY-MM-DD` strings; `new Date` parses them to
UTC midnight.  They are modelled as civil-calendar triples.  The runtime
timezone is assumed to be UTC, so `getFullYear`/`getDay`/`new Date(y,0,1)`
agree with the UTC calendar and `(date - startOfYear) / 86400000` is an
exact integer number of days. -/

structure CivilDate where
  year : Int
  month : Nat
  day : Nat
  deriving DecidableEq

def isLeap (y : Int) : Bool :=
  (y % 4 == 0 && y % 100 != 0) || y % 400 == 0

/-- Cumulative day counts before each month (non-leap). -/
def daysBeforeMonth (leap : Bool) (m : Nat) : Nat :=
  [0, 31, 59, 90, 120, 151, 181, 212, 243, 273, 304, 334].getD (m - 1) 0
    + (if leap && 2 < m then 1 else 0)

def dayOfYear (d : CivilDate) : Nat :=
  daysBeforeMonth (isLeap d.year) d.month + d.day

/-- Number of leap years strictly before year `y` (relative to year 0). -/
def leapsUpto (y : Int) : Int :=
  (y - 1).fdiv 4 - (y - 1).fdiv 100 + (y - 1).fdiv 400

/-- Days since 1970-01-01 of a civil date (the value of
`new Date('YYYY-MM-DD') / 86400000`). -/
def epochDay (d : CivilDate) : Int :=
  365 * (d.year - 1970) + (leapsUpto d.year - leapsUpto 1970)
    + (dayOfYear d : Int) - 1

def msPerDay : Int := 86400000

/-- `new Date(m.date).getTime()`. -/
def dateMs (d : CivilDate) : Int := epochDay d * msPerDay

/-- `Date.prototype.getDay` (0 = Sunday); 1970-01-01 was a Thursday. -/
def getDayOfWeek (d : CivilDate) : Int := (epochDay d + 4).emod 7

/-- `String(n).padStart(2, '0')`. -/
def pad2 (n : Int) : String :=
  let s := toString n
  if s.length < 2 then "0" ++ s else s

/-- The `'week'` case of the `switch` in `groupMeetingsByPeriod`:
`weekNum = Math.ceil(((date - startOfYear) / 86400000 + startOfYear.getDay() + 1) / 7)`,
key `` `${year}-W${pad2 weekNum}` ``.  `Math.ceil(v / 7)` of the integer `v`
is `(v + 6).fdiv 7`. -/
def weekKey (d : CivilDate) : String :=
  let startOfYear : CivilDate := ⟨d.year, 1, 1⟩
  let weekNum :=
    ((dateMs d - dateMs startOfYear) / msPerDay + getDayOfWeek startOfYear + 1 + 6).fdiv 7
  toString d.year ++ "-W" ++ pad2 weekNum

/-- The `'day'` case: `toISOString().split('T')[0]` (years 1000–9999). -/
def dayKey (d : CivilDate) : String :=
  toString d.year ++ "-" ++ pad2 (d.month : Int) ++ "-" ++ pad2 (d.day : Int)

/-- The `'month'` case: `` `${year}-${pad2(month)}` ``. -/
def monthKey (d : CivilDate) : String :=
  toString d.year ++ "-" ++ pad2 (d.month : Int)

/-- The `switch (groupBy)` of `groupMeetingsByPeriod`; the default case is
the day key. -/
def periodKey (groupBy : String) (d : CivilDate) : String :=
  if groupBy == "day" then dayKey d
  else if groupBy == "week" then weekKey d
  else if groupBy == "month" then monthKey d
  else dayKey d

/-! ## Stored meetings and aggregation (`src/index.js`) -/

/-- A persisted meeting record as the aggregation code reads it (`|| 0`
guards every numeric field, so absent/`NaN` fields — `none` here — and `0`
alike contribute 0). -/
structure StoredMeeting where
  date : CivilDate
  durationMinutes : Option ℚ
  calculatedCost : Option ℚ
  meetingType : Option String
  deriving DecidableEq

/-- `x || 0` on a possibly-absent number: absent (and `NaN`) are falsy and
give 0; a present 0 is falsy and gives 0 = itself. -/
def numOr0 (o : Option ℚ) : ℚ := o.getD 0

/-- `m.meetingType || 'ad-hoc'`: absent and empty-string are falsy. -/
def typeOr (o : Option String) (dflt : String) : String :=
  match o with
  | none => dflt
  | some s => if s = "" then dflt else s

/-- Appending a meeting to its period's group, preserving first-appearance
key order and per-key meeting order (JS object insertion order +
`grouped[key].push(meeting)`). -/
def addToGroup (acc : List (String × List StoredMeeting)) (key : String)
    (m : StoredMeeting) : List (String × List StoredMeeting) :=
  match acc with
  | [] => [(key, [m])]
  | (k, ms) :: rest =>
      if k = key then (k, ms ++ [m]) :: rest
      else (k, ms) :: addToGroup rest key m

/-- `groupMeetingsByPeriod` from `src/utils/cost-calculator.js`. -/
def groupMeetingsByPeriod (meetings : List StoredMeeting) (groupBy : String) :
    List (String × List StoredMeeting) :=
  meetings.foldl (fun acc m => addToGroup acc (periodKey groupBy m.date) m) []

structure PeriodBucket where
  period : String
  totalCost : ℚ
  meetingCount : ℕ
  totalHours : ℚ
  avgCostPerMeeting : ℚ
  deriving DecidableEq

/-- Stable insertion of `a` into `l`: `a` goes before the first element `b`
with `le a b`, in particular before elements it ties with. -/
def insertLe (le : α → α → Bool) (a : α) : List α → List α
  | [] => [a]
  | b :: t => if le a b then a :: b :: t else b :: insertLe le a t

/-- Stable insertion sort.  `Array.prototype.sort` with a comparator is
required (ES2019) to be stable, and for a total preorder the stable sorted
permutation is unique, so this models the source's `.sort(...)` calls
exactly. -/
def insertionSortBy (le : α → α → Bool) (l : List α) : List α :=
  l.foldr (insertLe le) []

/-- Lexicographic `≤` on character lists by code point. -/
def charsLe : List Char → List Char → Bool
  | [], _ => true
  | _ :: _, [] => false
  | a :: s, b :: t =>
      if a.toNat < b.toNat then true
      else if b.toNat < a.toNat then false
      else charsLe s t

/-- `a.localeCompare(b) <= 0` for the period keys: these are uniform ASCII
digit patterns, on which `localeCompare` agrees with code-point
lexicographic order. -/
def strLe (s t : String) : Bool := charsLe s.data t.data

/-- `calculateCostTrends` from `src/utils/cost-calculator.js`.  The final
`.sort((a, b) => a.period.localeCompare(b.period))` is ascending string
order. -/
def calculateCostTrends (meetings : List StoredMeeting) (groupBy : String) :
    List PeriodBucket :=
  if meetings.length = 0 then []
  else
    insertionSortBy (fun a b => strLe a.period b.period)
      ((groupMeetingsByPeriod meetings groupBy).map (fun p =>
        { period := p.1
          totalCost := (p.2.map (fun m => numOr0 m.calculatedCost)).sum
          meetingCount := p.2.length
          totalHours := (p.2.map (fun m => numOr0 m.durationMinutes)).sum / 60
          avgCostPerMeeting :=
            if 0 < p.2.length then
              (p.2.map (fun m => numOr0 m.calculatedCost)).sum / (p.2.length : ℚ)
            else 0 }))

structure TypeBucket where
  cost : ℚ
  count : ℕ
  hours : ℚ
  deriving DecidableEq

/-- One step of the `costByType` accumulation in `getDashboardStats`:
create a zero bucket for an unseen type, then `+=` cost, count and hours. -/
def addToTypeBucket (acc : List (String × TypeBucket)) (key : String)
    (c h : ℚ) : List (String × TypeBucket) :=
  match acc with
  | [] => [(key, ⟨c, 1, h⟩)]
  | (k, b) :: rest =>
      if k = key then (k, ⟨b.cost + c, b.count + 1, b.hours + h⟩) :: rest
      else (k, b) :: addToTypeBucket rest key c h

/-- The `stats` object returned by the `getDashboardStats` resolver
(`success`/`dateRange` echo fields omitted). -/
structure StatsSnapshot where
  totalCost : ℚ
  totalHours : ℚ
  meetingCount : ℕ
  costByType : List (String × TypeBucket)
  trends : List PeriodBucket
  trendPercentage : ℚ
  deriving DecidableEq

/-- The `switch (dateRange)` window, in days; default is last-month. -/
def windowDays (dateRange : String) : Int :=
  if dateRange == "last-week" then 7
  else if dateRange == "last-month" then 30
  else if dateRange == "last-quarter" then 90
  else 30

/-- `trends[trends.length - 1]?.totalCost || 0` (the `|| 0` maps a falsy
`0` to `0`, the identity on present rationals, and an out-of-range access
to `0`). -/
def currentWeekCost (trends : List PeriodBucket) : ℚ :=
  ((trends.get? (trends.length - 1)).map (·.totalCost)).getD 0

/-- `trends[trends.length - 2]?.totalCost || 0`. -/
def previousWeekCost (trends : List PeriodBucket) : ℚ :=
  ((trends.get? (trends.length - 2)).map (·.totalCost)).getD 0

/-- The trend-percentage block of `getDashboardStats`: guarded by
`trends.length >= 2` and `previousWeek > 0` (strict, not merely nonzero). -/
def computeTrendPercentage (trends : List PeriodBucket) : ℚ :=
  if 2 ≤ trends.length then
    if 0 < previousWeekCost trends then
      (currentWeekCost trends - previousWeekCost trends) / previousWeekCost trends * 100
    else 0
  else 0

/-- The `getDashboardStats` resolver from `src/index.js`; `new Date()` is
the explicit parameter `nowMs`. -/
def getDashboardStats (meetings : List StoredMeeting) (dateRange : String)
    (nowMs : Int) : StatsSnapshot :=
  let startMs := nowMs - windowDays dateRange * msPerDay
  let filtered := meetings.filter (fun m => startMs ≤ dateMs m.date)
  { totalCost := (filtered.map (fun m => numOr0 m.calculatedCost)).sum
    totalHours := (filtered.map (fun m => numOr0 m.durationMinutes)).sum / 60
    meetingCount := filtered.length
    costByType := filtered.foldl
      (fun acc m => addToTypeBucket acc (typeOr m.meetingType "ad-hoc")
        (numOr0 m.calculatedCost) (numOr0 m.durationMinutes / 60)) []
    trends := calculateCostTrends filtered "week"
    trendPercentage := computeTrendPercentage (calculateCostTrends filtered "week") }

/-! ## Claim C4: aggregation consistency of `getDashboardStats` -/

theorem addToTypeBucket_cost_sum (key : String) (c h : ℚ) :
    ∀ acc : List (String × TypeBucket),
      ((addToTypeBucket acc key c h).map (fun p => p.2.cost)).sum
        = (acc.map (fun p => p.2.cost)).sum + c := by
  intro acc
  induction acc with
  | nil => simp [addToTypeBucket]
  | cons p rest ih =>
      obtain ⟨k, b⟩ := p
      by_cases hk : k = key
      · simp [addToTypeBucket, hk]
        ring
      · simp [addToTypeBucket, hk, ih]
        ring

theorem addToTypeBucket_hours_sum (key : String) (c h : ℚ) :
    ∀ acc : List (String × TypeBucket),
      ((addToTypeBucket acc key c h).map (fun p => p.2.hours)).sum
        = (acc.map (fun p => p.2.hours)).sum + h := by
  intro acc
  induction acc with
  | nil => simp [addToTypeBucket]
  | cons p rest ih =>
      obtain ⟨k, b⟩ := p
      by_cases hk : k = key
      · simp [addToTypeBucket, hk]
        ring
      · simp [addToTypeBucket, hk, ih]
        ring

/-- Folding meetings into `costByType` adds each meeting's cost to exactly
one bucket, so the bucket costs sum to the accumulated meeting costs. -/
theorem costByType_cost_sum (l : List StoredMeeting) :
    ∀ acc : List (String × TypeBucket),
      ((l.foldl (fun acc m => addToTypeBucket acc (typeOr m.meetingType "ad-hoc")
          (numOr0 m.calculatedCost) (numOr0 m.durationMinutes / 60)) acc).map
            (fun p => p.2.cost)).sum
        = (acc.map (fun p => p.2.cost)).sum
          + (l.map (fun m => numOr0 m.calculatedCost)).sum := by
  induction l with
  | nil => intro acc; simp
  | cons m rest ih =>
      intro acc
      simp only [List.foldl_cons, List.map_cons, List.sum_cons]
      rw [ih, addToTypeBucket_cost_sum]
      ring

theorem costByType_hours_sum (l : List StoredMeeting) :
    ∀ acc : List (String × TypeBucket),
      ((l.foldl (fun acc m => addToTypeBucket acc (typeOr m.meetingType "ad-hoc")
          (numOr0 m.calculatedCost) (numOr0 m.durationMinutes / 60)) acc).map
            (fun p => p.2.hours)).sum
        = (acc.map (fun p => p.2.hours)).sum
          + (l.map (fun m => numOr0 m.durationMinutes / 60)).sum := by
  induction l with
  | nil => intro acc; simp
  | cons m rest ih =>
      intro acc
      simp only [List.foldl_cons, List.map_cons, List.sum_cons]
      rw [ih, addToTypeBucket_hours_sum]
      ring

theorem map_sum_div (l : List α) (f : α → ℚ) (c : ℚ) :
    (l.map f).sum / c = (l.map (fun x => f x / c)).sum := by
  induction l with
  | nil => simp
  | cons a rest ih => simp [add_div, ih]

/-- **C4** (confirmed).  For every meeting collection, date range and
clock value, the snapshot satisfies
`totalCost = sum of costByType bucket costs` and
`totalHours = sum of costByType bucket hours` — exactly, since both sides
sum the same filtered meetings (the source's floating-point sums agree
within tolerance; the rational model is exact). -/
theorem getDashboardStats_aggregation (meetings : List StoredMeeting)
    (dateRange : String) (nowMs : Int) :
    (getDashboardStats meetings dateRange nowMs).totalCost
      = (((getDashboardStats meetings dateRange nowMs).costByType).map
          (fun p => p.2.cost)).sum
    ∧ (getDashboardStats meetings dateRange nowMs).totalHours
      = (((getDashboardStats meetings dateRange nowMs).costByType).map
          (fun p => p.2.hours)).sum := by
  constructor
  · simp only [getDashboardStats]
    rw [costByType_cost_sum]
    simp
  · simp only [getDashboardStats]
    rw [costByType_hours_sum, map_sum_div]
    simp

/-! ## Claim C5: the trend-percentage guard -/

theorem computeTrendPercentage_spec (trends : List PeriodBucket) :
    (trends.length < 2 → computeTrendPercentage trends = 0)
    ∧ (2 ≤ trends.length →
        (0 < previousWeekCost trends →
          computeTrendPercentage trends
            = (currentWeekCost trends - previousWeekCost trends)
                / previousWeekCost trends * 100)
        ∧ (previousWeekCost trends ≤ 0 → computeTrendPercentage trends = 0)) := by
  unfold computeTrendPercentage
  refine ⟨fun h => ?_, fun h2 => ⟨fun hpos => ?_, fun hle => ?_⟩⟩
  · rw [if_neg (by omega)]
  · rw [if_pos h2, if_pos hpos]
  · rw [if_pos h2, if_neg (not_lt.mpr hle)]

/-- **C5** (amended).  In `getDashboardStats`, `trendPercentage` equals
`(last - secondToLast) / secondToLast * 100` when the weekly trends have at
least 2 buckets and the second-to-last bucket's `totalCost` is *strictly
positive* (the source guard is `previousWeek > 0`, not "nonzero"), and it
equals 0 when there are fewer than 2 buckets or that cost is `<= 0` — in
particular never infinity or NaN. -/
theorem getDashboardStats_trendPercentage (meetings : List StoredMeeting)
    (dateRange : String) (nowMs : Int) :
    ((getDashboardStats meetings dateRange nowMs).trends.length < 2 →
      (getDashboardStats meetings dateRange nowMs).trendPercentage = 0)
    ∧ (2 ≤ (getDashboardStats meetings dateRange nowMs).trends.length →
        (0 < previousWeekCost (getDashboardStats meetings dateRange nowMs).trends →
          (getDashboardStats meetings dateRange nowMs).trendPercentage
            = (currentWeekCost (getDashboardStats meetings dateRange nowMs).trends
                - previousWeekCost (getDashboardStats meetings dateRange nowMs).trends)
                / previousWeekCost (getDashboardStats meetings dateRange nowMs).trends
                * 100)
        ∧ (previousWeekCost (getDashboardStats meetings dateRange nowMs).trends ≤ 0 →
            (getDashboardStats meetings dateRange nowMs).trendPercentage = 0)) := by
  have h : (getDashboardStats meetings dateRange nowMs).trendPercentage
      = computeTrendPercentage (getDashboardStats meetings dateRange nowMs).trends := rfl
  rw [h]
  exact computeTrendPercentage_spec _

/-- Two stored meetings in consecutive ISO-approximate weeks of January
2024, the earlier one with a *negative* persisted `calculatedCost`
(reachable: stored records are arbitrary, and `addMeeting` itself produces
negative costs from negative parsed durations or negative configured
rates). -/
def cex5M1 : StoredMeeting := ⟨⟨2024, 1, 1⟩, some 60, some (-100), some "planning"⟩

def cex5M2 : StoredMeeting := ⟨⟨2024, 1, 10⟩, some 30, some 50, some "planning"⟩

/-- `new Date()` fixed at 2024-01-15, so both meetings fall in the
last-month window. -/
def cex5Now : Int := dateMs ⟨2024, 1, 15⟩

theorem cex5_filter :
    ([cex5M1, cex5M2].filter
      (fun m => cex5Now - windowDays "last-month" * msPerDay ≤ dateMs m.date))
    = [cex5M1, cex5M2] := rfl

theorem cex5_group :
    groupMeetingsByPeriod [cex5M1, cex5M2] "week"
      = [("2024-W01", [cex5M1]), ("2024-W02", [cex5M2])] := rfl

theorem cex5_trends :
    (getDashboardStats [cex5M1, cex5M2] "last-month" cex5Now).trends
      = [⟨"2024-W01", -100, 1, 1, -100⟩, ⟨"2024-W02", 50, 1, 1/2, 50⟩] := by
  have h : (getDashboardStats [cex5M1, cex5M2] "last-month" cex5Now).trends
      = calculateCostTrends [cex5M1, cex5M2] "week" := by
    simp only [getDashboardStats]
    rw [cex5_filter]
  rw [h, calculateCostTrends, if_neg (by norm_num), cex5_group]
  have hs : strLe "2024-W01" "2024-W02" = true := rfl
  simp only [List.map_cons, List.map_nil, insertionSortBy, List.foldr_cons,
    List.foldr_nil, insertLe, hs]
  norm_num [numOr0, cex5M1, cex5M2]

/-- **C5** (counterexample to the claim as stated).  The claim says the
formula applies whenever the second-to-last bucket's cost is *nonzero*;
the source guard is `previousWeek > 0`.  With weekly buckets of costs
`-100` and `50`, the second-to-last cost `-100` is nonzero and the claimed
formula evaluates to `-150`, yet `getDashboardStats` returns
`trendPercentage = 0`. -/
theorem getDashboardStats_trend_nonzero_cex :
    2 ≤ (getDashboardStats [cex5M1, cex5M2] "last-month" cex5Now).trends.length
    ∧ previousWeekCost (getDashboardStats [cex5M1, cex5M2] "last-month" cex5Now).trends = -100
    ∧ (getDashboardStats [cex5M1, cex5M2] "last-month" cex5Now).trendPercentage = 0
    ∧ (currentWeekCost (getDashboardStats [cex5M1, cex5M2] "last-month" cex5Now).trends
        - previousWeekCost (getDashboardStats [cex5M1, cex5M2] "last-month" cex5Now).trends)
        / previousWeekCost (getDashboardStats [cex5M1, cex5M2] "last-month" cex5Now).trends
        * 100 = -150 := by
  have htp : (getDashboardStats [cex5M1, cex5M2] "last-month" cex5Now).trendPercentage
      = computeTrendPercentage
          (getDashboardStats [cex5M1, cex5M2] "last-month" cex5Now).trends := rfl
  refine ⟨?_, ?_, ?_, ?_⟩
  · rw [cex5_trends]
    norm_num
  · rw [cex5_trends]
    norm_num [previousWeekCost]
  · rw [htp, cex5_trends]
    norm_num [computeTrendPercentage, previousWeekCost]
  · rw [cex5_trends]
    norm_num [currentWeekCost, previousWeekCost]

/-- Same two weeks with a positive earlier cost, for the amended claim's
witness. -/
def w5M1 : StoredMeeting := ⟨⟨2024, 1, 1⟩, some 60, some 100, some "planning"⟩

def w5M2 : StoredMeeting := ⟨⟨2024, 1, 10⟩, some 30, some 50, some "planning"⟩

theorem w5_filter :
    ([w5M1, w5M2].filter
      (fun m => cex5Now - windowDays "last-month" * msPerDay ≤ dateMs m.date))
    = [w5M1, w5M2] := rfl

theorem w5_group :
    groupMeetingsByPeriod [w5M1, w5M2] "week"
      = [("2024-W01", [w5M1]), ("2024-W02", [w5M2])] := rfl

theorem w5_trends :
    (getDashboardStats [w5M1, w5M2] "last-month" cex5Now).trends
      = [⟨"2024-W01", 100, 1, 1, 100⟩, ⟨"2024-W02", 50, 1, 1/2, 50⟩] := by
  have h : (getDashboardStats [w5M1, w5M2] "last-month" cex5Now).trends
      = calculateCostTrends [w5M1, w5M2] "week" := by
    simp only [getDashboardStats]
    rw [w5_filter]
  rw [h, calculateCostTrends, if_neg (by norm_num), w5_group]
  have hs : strLe "2024-W01" "2024-W02" = true := rfl
  simp only [List.map_cons, List.map_nil, insertionSortBy, List.foldr_cons,
    List.foldr_nil, insertLe, hs]
  norm_num [numOr0, w5M1, w5M2]

/-- **C5** (witness for the amended claim): weekly costs 100 then 50, so
the second-to-last cost is strictly positive and the amended theorem gives
`trendPercentage = (50 - 100) / 100 * 100 = -50`. -/
theorem getDashboardStats_trendPercentage_witness :
    (getDashboardStats [w5M1, w5M2] "last-month" cex5Now).trendPercentage = -50 := by
  have h2 : 2 ≤ (getDashboardStats [w5M1, w5M2] "last-month" cex5Now).trends.length := by
    rw [w5_trends]
    norm_num
  have hpos : 0 < previousWeekCost
      (getDashboardStats [w5M1, w5M2] "last-month" cex5Now).trends := by
    rw [w5_trends]
    norm_num [previousWeekCost]
  have h := ((getDashboardStats_trendPercentage [w5M1, w5M2] "last-month" cex5Now).2 h2).1 hpos
  rw [h, w5_trends]
  norm_num [currentWeekCost, previousWeekCost]

/-! ## `generateOptimizations` (`src/utils/velocity-correlator.js`)

A suggestion keeps its `priority`, `category`, `title` and
`potentialSavings`; the `description` string (display-only `toFixed`
interpolation) and the result's `summary` string are omitted. -/

structure Suggestion where
  priority : String
  category : String
  title : String
  potentialSavings : ℚ
  deriving DecidableEq

/-- The destructured `stats` argument of `generateOptimizations`. -/
structure OptStats where
  totalCost : ℚ
  totalHours : ℚ
  meetingCount : ℕ
  costByType : List (String × TypeBucket)
  trendPercentage : ℚ
  deriving DecidableEq

/-- Rule 2's test `(standupData.hours / standupData.count) * 60 > 15`.
When `count = 0` the source compares against `hours / 0`, which is
`Infinity` for positive hours (so the rule fires) and `-Infinity`/`NaN`
otherwise (so it does not). -/
def standupOverrun (b : TypeBucket) : Bool :=
  if b.count = 0 then decide (0 < b.hours)
  else decide (15 < b.hours / (b.count : ℚ) * 60)

/-- Rule 3's test `(adHocData.cost / totalCost) * 100 > 30`.  When
`totalCost = 0` the source compares against `cost / 0`: `Infinity` for
positive cost (fires), otherwise not. -/
def adHocOverrun (b : TypeBucket) (totalCost : ℚ) : Bool :=
  if totalCost = 0 then decide (0 < b.cost)
  else decide (30 < b.cost / totalCost * 100)

/-- The six `suggestions.push(...)` rules of `generateOptimizations`, in
source order, before the final sort. -/
def preSuggestions (stats : OptStats) : List Suggestion :=
  (if 10 < stats.trendPercentage then
    [⟨"high", "cost-trend", "Meeting costs are increasing",
      stats.totalCost * 0.1⟩]
   else [])
  ++ (match List.lookup "standup" stats.costByType with
      | some b =>
          if standupOverrun b then
            [⟨"medium", "standup", "Standups are running long", b.cost * 0.3⟩]
          else []
      | none => [])
  ++ (match List.lookup "ad-hoc" stats.costByType with
      | some b =>
          if adHocOverrun b stats.totalCost then
            [⟨"high", "ad-hoc", "High ad-hoc meeting cost", b.cost * 0.4⟩]
          else []
      | none => [])
  ++ (if 3 < stats.totalHours / 20 then
        [⟨"high", "time-spent", "High meeting load", stats.totalCost * 0.2⟩]
      else [])
  ++ (if 10000 < stats.totalCost then
        [⟨"medium", "general", "Review recurring meetings",
          stats.totalCost * 0.15⟩]
      else [])
  ++ (if 30 < stats.meetingCount then
        [⟨"low", "attendance", "Consider optional attendees",
          stats.totalCost * 0.1⟩]
      else [])

/-- `priorityOrder = {high: 0, medium: 1, low: 2}`; the fallback value 3
models the `undefined` lookup for any other string, which no generated
suggestion carries. -/
def priorityOrder (p : String) : ℕ :=
  if p = "high" then 0
  else if p = "medium" then 1
  else if p = "low" then 2
  else 3

/-- The sort comparator `priorityOrder[a.priority] - priorityOrder[b.priority]`
as the total preorder it induces. -/
def prioLe (a b : Suggestion) : Bool :=
  priorityOrder a.priority ≤ priorityOrder b.priority

/-- Result of `generateOptimizations` (`summary` string omitted). -/
structure OptResult where
  suggestions : List Suggestion
  totalPotentialSavings : ℚ
  deriving DecidableEq

/-- `generateOptimizations`: evaluate the six rules in order, stable-sort
by priority rank, and total the savings (`s.potentialSavings || 0` is the
identity here since a falsy 0 maps to 0). -/
def generateOptimizations (stats : OptStats) : OptResult :=
  let sorted := insertionSortBy prioLe (preSuggestions stats)
  { suggestions := sorted
    totalPotentialSavings := (sorted.map (·.potentialSavings)).sum }

/-! ### Sorting lemmas -/

theorem mem_insertLe (le : α → α → Bool) (a x : α) :
    ∀ l : List α, x ∈ insertLe le a l ↔ x = a ∨ x ∈ l := by
  intro l
  induction l with
  | nil => simp [insertLe]
  | cons b t ih =>
      by_cases h : le a b = true
      · simp [insertLe, h]
      · simp only [insertLe, if_neg h, List.mem_cons, ih]
        tauto

theorem mem_insertionSortBy (le : α → α → Bool) (x : α) :
    ∀ l : List α, x ∈ insertionSortBy le l ↔ x ∈ l := by
  intro l
  induction l with
  | nil => simp [insertionSortBy]
  | cons a t ih =>
      simp only [insertionSortBy, List.foldr_cons] at ih ⊢
      rw [mem_insertLe]
      simp [ih]

theorem insertLe_of_head (le : α → α → Bool) (a : α) (l : List α)
    (h : ∀ b ∈ l, le a b = true) : insertLe le a l = a :: l := by
  cases l with
  | nil => rfl
  | cons b t => rw [insertLe, if_pos (h b (List.mem_cons_self b t))]

theorem insertLe_append (le : α → α → Bool) (a : α) (ys : List α) :
    ∀ xs : List α, (∀ b ∈ xs, le a b = false) →
      insertLe le a (xs ++ ys) = xs ++ insertLe le a ys := by
  intro xs
  induction xs with
  | nil => intro; rfl
  | cons x t ih =>
      intro h
      rw [List.cons_append, insertLe, if_neg (by simp [h x (List.mem_cons_self x t)]),
        ih (fun b hb => h b (List.mem_cons_of_mem x hb)), List.cons_append]

/-- A stable sort by priority rank sends a list whose ranks are all ≤ 2 to
the concatenation of its rank-0, rank-1 and rank-2 sublists in original
relative order. -/
theorem insertionSortBy_prioLe_decomp :
    ∀ l : List Suggestion, (∀ s ∈ l, priorityOrder s.priority ≤ 2) →
      insertionSortBy prioLe l
        = l.filter (fun s => priorityOrder s.priority == 0)
          ++ l.filter (fun s => priorityOrder s.priority == 1)
          ++ l.filter (fun s => priorityOrder s.priority == 2) := by
  intro l
  induction l with
  | nil => intro; simp [insertionSortBy]
  | cons a t ih =>
      intro h
      have ht : ∀ s ∈ t, priorityOrder s.priority ≤ 2 :=
        fun s hs => h s (List.mem_cons_of_mem a hs)
      have ha : priorityOrder a.priority ≤ 2 := h a (List.mem_cons_self a t)
      have hstep : insertionSortBy prioLe (a :: t)
          = insertLe prioLe a (insertionSortBy prioLe t) := rfl
      rw [hstep, ih ht]
      have hmem0 : ∀ b ∈ t.filter (fun s => priorityOrder s.priority == 0),
          priorityOrder b.priority = 0 := by
        intro b hb
        simpa using (List.mem_filter.mp hb).2
      have hmem1 : ∀ b ∈ t.filter (fun s => priorityOrder s.priority == 1),
          priorityOrder b.priority = 1 := by
        intro b hb
        simpa using (List.mem_filter.mp hb).2
      have hmem2 : ∀ b ∈ t.filter (fun s => priorityOrder s.priority == 2),
          priorityOrder b.priority = 2 := by
        intro b hb
        simpa using (List.mem_filter.mp hb).2
      rcases show priorityOrder a.priority = 0 ∨ priorityOrder a.priority = 1
          ∨ priorityOrder a.priority = 2 by omega with hr | hr | hr
      · rw [insertLe_of_head]
        · simp [List.filter_cons, hr]
        · intro b _
          simp [prioLe, hr]
      · rw [List.append_assoc, insertLe_append, insertLe_of_head]
        · simp [List.filter_cons, hr, List.append_assoc]
        · intro b hb
          rcases List.mem_append.mp hb with hb1 | hb2
          · simp [prioLe, hr, hmem1 b hb1]
          · simp [prioLe, hr, hmem2 b hb2]
        · intro b hb
          simp [prioLe, hr, hmem0 b hb]
      · rw [insertLe_append, insertLe_of_head]
        · simp [List.filter_cons, hr]
        · intro b hb
          simp [prioLe, hr, hmem2 b hb]
        · intro b hb
          rcases List.mem_append.mp hb with hb1 | hb2
          · simp [prioLe, hr, hmem0 b hb1]
          · simp [prioLe, hr, hmem1 b hb2]

/-- Every rule emits one of the three known priorities, so the
`priorityOrder` fallback 3 never occurs on generated suggestions. -/
theorem preSuggestions_rank_le (stats : OptStats) :
    ∀ s ∈ preSuggestions stats, priorityOrder s.priority ≤ 2 := by
  intro s hs
  simp only [preSuggestions, List.mem_append] at hs
  rcases hs with ((((h | h) | h) | h) | h) | h <;>
    (repeat' split at h) <;> simp_all [priorityOrder]

/-- **C8** (confirmed).  The suggestion sequence is non-decreasing in
priority rank under `{high: 0, medium: 1, low: 2}`, and for every priority
its suggestions appear in exactly the order the six rules were evaluated
(the sort is stable). -/
theorem generateOptimizations_ordering (stats : OptStats) :
    (generateOptimizations stats).suggestions.Pairwise
      (fun a b => priorityOrder a.priority ≤ priorityOrder b.priority)
    ∧ ∀ p : String,
        (generateOptimizations stats).suggestions.filter (fun s => s.priority == p)
          = (preSuggestions stats).filter (fun s => s.priority == p) := by
  have hpre := preSuggestions_rank_le stats
  have hout : (generateOptimizations stats).suggestions
      = insertionSortBy prioLe (preSuggestions stats) := rfl
  rw [hout, insertionSortBy_prioLe_decomp _ hpre]
  constructor
  · rw [List.pairwise_append, List.pairwise_append]
    refine ⟨⟨?_, ?_, ?_⟩, ?_, ?_⟩
    · exact List.pairwise_of_forall_mem_list (fun a ha b hb => by
        have := (List.mem_filter.mp ha).2
        have := (List.mem_filter.mp hb).2
        simp_all)
    · exact List.pairwise_of_forall_mem_list (fun a ha b hb => by
        have := (List.mem_filter.mp ha).2
        have := (List.mem_filter.mp hb).2
        simp_all)
    · intro a ha b hb
      have := (List.mem_filter.mp ha).2
      have := (List.mem_filter.mp hb).2
      simp_all
    · exact List.pairwise_of_forall_mem_list (fun a ha b hb => by
        have := (List.mem_filter.mp ha).2
        have := (List.mem_filter.mp hb).2
        simp_all)
    · intro a ha b hb
      rcases List.mem_append.mp ha with ha' | ha' <;>
        · have := (List.mem_filter.mp ha').2
          have := (List.mem_filter.mp hb).2
          simp_all
  · intro p
    have key : ∀ k : ℕ, priorityOrder p = k →
        (preSuggestions stats).filter
            (fun s => s.priority == p && (priorityOrder s.priority == k))
          = (preSuggestions stats).filter (fun s => s.priority == p) := by
      intro k hk
      refine List.filter_congr (fun s _ => ?_)
      by_cases hp : s.priority = p
      · simp [hp, hk]
      · simp [hp]
    have key2 : ∀ k : ℕ, priorityOrder p ≠ k →
        (preSuggestions stats).filter
            (fun s => s.priority == p && (priorityOrder s.priority == k)) = [] := by
      intro k hk
      refine List.filter_eq_nil_iff.mpr (fun s _ => ?_)
      by_cases hp : s.priority = p
      · simp [hp, hk]
      · simp [hp]
    rw [List.filter_append, List.filter_append, List.filter_filter,
      List.filter_filter, List.filter_filter]
    have hcases : priorityOrder p = 0 ∨ priorityOrder p = 1 ∨ priorityOrder p = 2
        ∨ priorityOrder p = 3 := by
      unfold priorityOrder
      split_ifs <;> simp
    rcases hcases with hk | hk | hk | hk
    · rw [key 0 hk, key2 1 (by omega), key2 2 (by omega)]
      simp
    · rw [key2 0 (by omega), key 1 hk, key2 2 (by omega)]
      simp
    · rw [key2 0 (by omega), key2 1 (by omega), key 2 hk]
      simp
    · rw [key2 0 (by omega), key2 1 (by omega), key2 2 (by omega)]
      refine (List.filter_eq_nil_iff.mpr (fun s hs => ?_)).symm
      have := hpre s hs
      by_cases hp : s.priority = p
      · rw [hp] at this
        omega
      · simp [hp]

/-- A generated suggestion of category `"standup"` can only come from rule
2, which requires the standup bucket to exist and its average-duration
test to pass, and fixes the priority, title and savings. -/
theorem mem_preSuggestions_standup (stats : OptStats) (s : Suggestion)
    (hs : s ∈ preSuggestions stats) (hcat : s.category = "standup") :
    ∃ b : TypeBucket, List.lookup "standup" stats.costByType = some b
      ∧ standupOverrun b = true
      ∧ s = ⟨"medium", "standup", "Standups are running long", b.cost * 0.3⟩ := by
  simp only [preSuggestions, List.mem_append] at hs
  rcases hs with ((((h | h) | h) | h) | h) | h <;>
    (repeat' split at h) <;> simp_all

theorem standup_mem_preSuggestions (stats : OptStats) (b : TypeBucket)
    (hb : List.lookup "standup" stats.costByType = some b)
    (hcond : standupOverrun b = true) :
    (⟨"medium", "standup", "Standups are running long", b.cost * 0.3⟩ : Suggestion)
      ∈ preSuggestions stats := by
  simp only [preSuggestions, List.mem_append, hb, if_pos hcond]
  tauto

/-- **C7** (confirmed).  For stats whose standup bucket (when present) has
a positive count, `generateOptimizations` emits a standup suggestion iff
`(hours / count) * 60 > 15` (strict); any such suggestion has medium
priority and `potentialSavings = 0.3 *` the bucket's cost; and with no
standup bucket none is emitted. -/
theorem generateOptimizations_standup (stats : OptStats) :
    (∀ b : TypeBucket, List.lookup "standup" stats.costByType = some b → 0 < b.count →
      (((∃ s ∈ (generateOptimizations stats).suggestions, s.category = "standup")
          ↔ 15 < b.hours / (b.count : ℚ) * 60)
        ∧ ∀ s ∈ (generateOptimizations stats).suggestions, s.category = "standup" →
            s.priority = "medium" ∧ s.potentialSavings = b.cost * 0.3))
    ∧ (List.lookup "standup" stats.costByType = none →
        ∀ s ∈ (generateOptimizations stats).suggestions, s.category ≠ "standup") := by
  have hout : (generateOptimizations stats).suggestions
      = insertionSortBy prioLe (preSuggestions stats) := rfl
  constructor
  · intro b hb hc
    have hover : standupOverrun b = decide (15 < b.hours / (b.count : ℚ) * 60) := by
      unfold standupOverrun
      rw [if_neg (by omega)]
    constructor
    · constructor
      · rintro ⟨s, hs, hcat⟩
        rw [hout, mem_insertionSortBy] at hs
        obtain ⟨b', hb', hcond, -⟩ := mem_preSuggestions_standup stats s hs hcat
        rw [hb] at hb'
        obtain rfl : b = b' := by injection hb'
        rw [hover] at hcond
        exact of_decide_eq_true hcond
      · intro hlt
        refine ⟨⟨"medium", "standup", "Standups are running long", b.cost * 0.3⟩, ?_, rfl⟩
        rw [hout, mem_insertionSortBy]
        exact standup_mem_preSuggestions stats b hb (by rw [hover]; exact decide_eq_true hlt)
    · intro s hs hcat
      rw [hout, mem_insertionSortBy] at hs
      obtain ⟨b', hb', -, rfl⟩ := mem_preSuggestions_standup stats s hs hcat
      rw [hb] at hb'
      obtain rfl : b = b' := by injection hb'
      exact ⟨rfl, rfl⟩
  · intro hnone s hs hcat
    rw [hout, mem_insertionSortBy] at hs
    obtain ⟨b', hb', -, -⟩ := mem_preSuggestions_standup stats s hs hcat
    rw [hnone] at hb'
    cases hb'

/-- **C7** (witness, Scenario C): a standup bucket
`{cost: 100, count: 10, hours: 2.5}` has average duration exactly 15
minutes, so no standup suggestion is emitted (the boundary is strict). -/
theorem generateOptimizations_standup_witness :
    ∀ s ∈ (generateOptimizations
        ⟨100, 5/2, 10, [("standup", ⟨100, 10, 5/2⟩)], 0⟩).suggestions,
      s.category ≠ "standup" := by
  intro s hs hcat
  have h := (generateOptimizations_standup
      ⟨100, 5/2, 10, [("standup", ⟨100, 10, 5/2⟩)], 0⟩).1
    ⟨100, 10, 5/2⟩ rfl (by norm_num)
  have hlt := h.1.mp ⟨s, hs, hcat⟩
  norm_num at hlt

/-! ## `calculateCorrelation` (`src/utils/velocity-correlator.js`)

The sums are exactly the source's indexed `reduce`s over
`sprintSnapshots` (`|| 0` on each field).  The source computes
`denominator = Math.sqrt((n*sumX2 - sumX**2) * (n*sumY2 - sumY**2))` and
tests `denominator === 0`; since the radicand is a product of two
Cauchy-Schwarz-nonnegative factors (proved below), `denominator = 0` is
exactly `radicand = 0`, and `Math.sqrt` of a negative radicand (`NaN`) is
unreachable. -/

structure Sprint where
  totalMeetingHours : Option ℚ
  completedPoints : Option ℚ
  deriving DecidableEq

/-- `s.totalMeetingHours || 0`. -/
def hoursOf (s : Sprint) : ℚ := s.totalMeetingHours.getD 0

/-- `s.completedPoints || 0`. -/
def pointsOf (s : Sprint) : ℚ := s.completedPoints.getD 0

def corrSumX (l : List Sprint) : ℚ := (l.map hoursOf).sum

def corrSumY (l : List Sprint) : ℚ := (l.map pointsOf).sum

def corrSumXY (l : List Sprint) : ℚ :=
  (l.map (fun s => hoursOf s * pointsOf s)).sum

def corrSumX2 (l : List Sprint) : ℚ :=
  (l.map (fun s => hoursOf s * hoursOf s)).sum

def corrSumY2 (l : List Sprint) : ℚ :=
  (l.map (fun s => pointsOf s * pointsOf s)).sum

/-- `n * sumXY - sumX * sumY`. -/
def corrNumerator (l : List Sprint) : ℚ :=
  l.length * corrSumXY l - corrSumX l * corrSumY l

/-- The radicand `(n*sumX2 - sumX**2) * (n*sumY2 - sumY**2)` of the
Pearson denominator — the product of the (scaled) variances. -/
def corrDenomSq (l : List Sprint) : ℚ :=
  (l.length * corrSumX2 l - corrSumX l ^ 2) * (l.length * corrSumY2 l - corrSumY l ^ 2)

/-- `calculateCorrelation`: 0 for fewer than 3 snapshots, 0 for a zero
denominator, otherwise `numerator / Math.sqrt(radicand)`. -/
noncomputable def calculateCorrelation (l : List Sprint) : ℝ :=
  if l.length < 3 then 0
  else if corrDenomSq l = 0 then 0
  else (corrNumerator l : ℝ) / Real.sqrt (corrDenomSq l)

theorem list_map_sum_eq_fin_sum (l : List α) (f : α → ℚ) :
    (l.map f).sum = ∑ i : Fin l.length, f (l.get i) := by
  induction l with
  | nil => simp
  | cons a t ih =>
      simp only [List.map_cons, List.sum_cons, List.length_cons, ih]
      rw [Fin.sum_univ_succ]
      simp

/-- Cauchy-Schwarz with the constant sequence: `n * Σx² - (Σx)² ≥ 0`. -/
theorem centered_var_nonneg (n : ℕ) (f : Fin n → ℚ) :
    0 ≤ (n : ℚ) * (∑ i, f i * f i) - (∑ i, f i) ^ 2 := by
  have h := Finset.sum_mul_sq_le_sq_mul_sq Finset.univ f (fun _ => (1 : ℚ))
  simp only [mul_one, one_pow, Finset.sum_const, Finset.card_univ, Fintype.card_fin,
    nsmul_eq_mul] at h
  have hsq : ∀ i : Fin n, f i ^ 2 = f i * f i := fun i => by ring
  simp only [hsq] at h
  nlinarith [h]

/-- Cauchy-Schwarz for the centered sequences `n*x_i - Σx`, `n*y_i - Σy`:
`(n Σxy - Σx Σy)² ≤ (n Σx² - (Σx)²)(n Σy² - (Σy)²)`. -/
theorem centered_cs (n : ℕ) (hn : 0 < n) (f g : Fin n → ℚ) :
    ((n : ℚ) * (∑ i, f i * g i) - (∑ i, f i) * (∑ i, g i)) ^ 2
      ≤ ((n : ℚ) * (∑ i, f i * f i) - (∑ i, f i) ^ 2)
        * ((n : ℚ) * (∑ i, g i * g i) - (∑ i, g i) ^ 2) := by
  have h := Finset.sum_mul_sq_le_sq_mul_sq Finset.univ
    (fun i => (n : ℚ) * f i - ∑ j, f j) (fun i => (n : ℚ) * g i - ∑ j, g j)
  have e1 : (∑ i, ((n : ℚ) * f i - ∑ j, f j) * ((n : ℚ) * g i - ∑ j, g j))
      = (n : ℚ) * ((n : ℚ) * (∑ i, f i * g i) - (∑ i, f i) * (∑ i, g i)) := by
    have hpt : ∀ i : Fin n, ((n : ℚ) * f i - ∑ j, f j) * ((n : ℚ) * g i - ∑ j, g j)
        = (n : ℚ) ^ 2 * (f i * g i) - ((n : ℚ) * (∑ j, g j)) * f i
          - ((n : ℚ) * (∑ j, f j)) * g i + (∑ j, f j) * (∑ j, g j) := by
      intro i
      ring
    rw [Finset.sum_congr rfl (fun i _ => hpt i)]
    rw [Finset.sum_add_distrib, Finset.sum_sub_distrib, Finset.sum_sub_distrib,
      ← Finset.mul_sum, ← Finset.mul_sum, ← Finset.mul_sum,
      Finset.sum_const, Finset.card_univ, Fintype.card_fin, nsmul_eq_mul]
    ring
  have e2 : (∑ i, ((n : ℚ) * f i - ∑ j, f j) ^ 2)
      = (n : ℚ) * ((n : ℚ) * (∑ i, f i * f i) - (∑ i, f i) ^ 2) := by
    have hpt : ∀ i : Fin n, ((n : ℚ) * f i - ∑ j, f j) ^ 2
        = (n : ℚ) ^ 2 * (f i * f i) - (2 * (n : ℚ) * (∑ j, f j)) * f i
          + (∑ j, f j) ^ 2 := by
      intro i
      ring
    rw [Finset.sum_congr rfl (fun i _ => hpt i)]
    rw [Finset.sum_add_distrib, Finset.sum_sub_distrib,
      ← Finset.mul_sum, ← Finset.mul_sum,
      Finset.sum_const, Finset.card_univ, Fintype.card_fin, nsmul_eq_mul]
    ring
  have e3 : (∑ i, ((n : ℚ) * g i - ∑ j, g j) ^ 2)
      = (n : ℚ) * ((n : ℚ) * (∑ i, g i * g i) - (∑ i, g i) ^ 2) := by
    have hpt : ∀ i : Fin n, ((n : ℚ) * g i - ∑ j, g j) ^ 2
        = (n : ℚ) ^ 2 * (g i * g i) - (2 * (n : ℚ) * (∑ j, g j)) * g i
          + (∑ j, g j) ^ 2 := by
      intro i
      ring
    rw [Finset.sum_congr rfl (fun i _ => hpt i)]
    rw [Finset.sum_add_distrib, Finset.sum_sub_distrib,
      ← Finset.mul_sum, ← Finset.mul_sum,
      Finset.sum_const, Finset.card_univ, Fintype.card_fin, nsmul_eq_mul]
    ring
  rw [e1, e2, e3, mul_pow] at h
  have hn2 : (0 : ℚ) < (n : ℚ) ^ 2 := by positivity
  have hre : (n : ℚ) * ((n : ℚ) * (∑ i, f i * f i) - (∑ i, f i) ^ 2)
      * ((n : ℚ) * ((n : ℚ) * (∑ i, g i * g i) - (∑ i, g i) ^ 2))
      = (n : ℚ) ^ 2 * (((n : ℚ) * (∑ i, f i * f i) - (∑ i, f i) ^ 2)
        * ((n : ℚ) * (∑ i, g i * g i) - (∑ i, g i) ^ 2)) := by
    ring
  rw [hre] at h
  exact (mul_le_mul_left hn2).mp h

/-- **C6** (confirmed).  `calculateCorrelation` returns exactly 0 for
fewer than 3 snapshots and whenever the Pearson radicand (product of
scaled variances) is zero; with at least 3 snapshots and a nonzero
radicand its value lies in `[-1, 1]` (Cauchy-Schwarz). -/
theorem calculateCorrelation_spec (l : List Sprint) :
    (l.length < 3 → calculateCorrelation l = 0)
    ∧ (corrDenomSq l = 0 → calculateCorrelation l = 0)
    ∧ (3 ≤ l.length → corrDenomSq l ≠ 0 →
        -1 ≤ calculateCorrelation l ∧ calculateCorrelation l ≤ 1) := by
  refine ⟨fun h => ?_, fun hd => ?_, fun h3 hd => ?_⟩
  · rw [calculateCorrelation, if_pos h]
  · rw [calculateCorrelation]
    by_cases h : l.length < 3
    · rw [if_pos h]
    · rw [if_neg h, if_pos hd]
  · rw [calculateCorrelation, if_neg (by omega), if_neg hd]
    have hA : 0 ≤ (l.length : ℚ) * corrSumX2 l - corrSumX l ^ 2 := by
      have h := centered_var_nonneg l.length (fun i => hoursOf (l.get i))
      simp only [corrSumX2, corrSumX, list_map_sum_eq_fin_sum]
      exact h
    have hB : 0 ≤ (l.length : ℚ) * corrSumY2 l - corrSumY l ^ 2 := by
      have h := centered_var_nonneg l.length (fun i => pointsOf (l.get i))
      simp only [corrSumY2, corrSumY, list_map_sum_eq_fin_sum]
      exact h
    have hcs : corrNumerator l ^ 2 ≤ corrDenomSq l := by
      have h := centered_cs l.length (by omega)
        (fun i => hoursOf (l.get i)) (fun i => pointsOf (l.get i))
      simp only [corrNumerator, corrDenomSq, corrSumXY, corrSumX, corrSumY,
        corrSumX2, corrSumY2, list_map_sum_eq_fin_sum]
      exact h
    have h0 : (0 : ℚ) ≤ corrDenomSq l := by
      rw [corrDenomSq]
      exact mul_nonneg hA hB
    have hAB : (0 : ℚ) < corrDenomSq l := h0.lt_of_ne (Ne.symm hd)
    have hABR : (0 : ℝ) < (corrDenomSq l : ℝ) := by exact_mod_cast hAB
    have hs : 0 < Real.sqrt (corrDenomSq l : ℝ) := Real.sqrt_pos.mpr hABR
    have hnum : |(corrNumerator l : ℝ)| ≤ Real.sqrt (corrDenomSq l : ℝ) := by
      rw [← Real.sqrt_sq_eq_abs]
      apply Real.sqrt_le_sqrt
      exact_mod_cast hcs
    have habs : |(corrNumerator l : ℝ) / Real.sqrt (corrDenomSq l : ℝ)| ≤ 1 := by
      rw [abs_div, abs_of_pos hs]
      exact (div_le_one hs).mpr hnum
    exact abs_le.mp habs

/-- **C6** (witness): a 2-snapshot input returns 0; three snapshots with
constant meeting hours (zero variance) return 0; three non-degenerate
snapshots give a value in `[-1, 1]`. -/
theorem calculateCorrelation_spec_witness :
    calculateCorrelation [⟨some 1, some 2⟩, ⟨some 2, some 1⟩] = 0
    ∧ calculateCorrelation [⟨some 1, some 5⟩, ⟨some 1, some 7⟩, ⟨some 1, some 9⟩] = 0
    ∧ (-1 ≤ calculateCorrelation [⟨some 0, some 0⟩, ⟨some 1, some 1⟩, ⟨some 2, some 2⟩]
        ∧ calculateCorrelation [⟨some 0, some 0⟩, ⟨some 1, some 1⟩, ⟨some 2, some 2⟩] ≤ 1) := by
  refine ⟨(calculateCorrelation_spec _).1 (by norm_num),
          (calculateCorrelation_spec _).2.1 ?_,
          (calculateCorrelation_spec _).2.2 (by norm_num) ?_⟩
  · norm_num [corrDenomSq, corrSumX, corrSumX2, corrSumY, corrSumY2, hoursOf, pointsOf]
  · norm_num [corrDenomSq, corrSumX, corrSumX2, corrSumY, corrSumY2, hoursOf, pointsOf]
